import Mathlib

/-!
Verification development for the MOBI e-book metadata extractor
(`mobibook.py`): a shallow embedding of the parsing pipeline
(`MobiBook.__init__`, `parseSections`, `loadSection`, `parseMobiHeader`,
`processEXTH`, `storeEXTH`, `__getattr__`, `title`) together with theorems
about its section-table handling, EXTH metadata walk, field resolution and
title fallback logic.

Conventions of the embedding:
- a Python byte string is a `List Nat` (each element one byte);
- Python slicing `s[a:b]`, which never raises and clamps to the string,
  is `pySlice`;
- `struct.unpack` of a big-endian field, which raises `struct.error`
  unless the slice has exactly the expected width, is `unpackBE`
  (returning `Option`), lifted to `Except` by `unpackExc`;
- Python exceptions are values of `MobiError`, one constructor per
  exception class raised by the code (`MobiException` for the magic
  check, `struct.error`, `IndexError`, `AttributeError`,
  `UnicodeDecodeError`);
- a Python dict is an association list with replace-on-duplicate insert
  (`dictInsert`), so key order is first-insertion order and lookups are
  unambiguous;
- decoded unicode text is a `List Nat` of code points.
-/

set_option maxRecDepth 100000

namespace Mobi

/-- A byte string: one `Nat` per byte. -/
abbrev ByteSeq := List Nat

/-- Python slice `xs[a:b]` for `0 ≤ a`, `0 ≤ b`: clamps, never fails. -/
def pySlice (xs : ByteSeq) (a b : Nat) : ByteSeq := (xs.take b).drop a

/-- Big-endian value of a byte string. -/
def beVal (xs : ByteSeq) : Nat := xs.foldl (fun acc b => acc * 256 + b) 0

/-- `struct.unpack` of one big-endian integer of width `w`: requires the
slice to have exactly `w` bytes, like `struct.unpack` does. -/
def unpackBE (w : Nat) (xs : ByteSeq) : Option Nat :=
  if xs.length = w then some (beVal xs) else none

/-- The byte string literal `BOOKMOBI` (the PDB format tag). -/
def bookmobiTag : ByteSeq := [66, 79, 79, 75, 77, 79, 66, 73]

/-- The byte string literal `EXTH`. -/
def exthTag : ByteSeq := [69, 88, 84, 72]

/-- Exception classes raised by the source code. -/
inductive MobiError where
  | mobiException
  | structError
  | indexError
  | attributeError
  | unicodeDecodeError
deriving DecidableEq, Repr

/-- Modelled from the spec: section 7 of the specification groups the
failures of the code into named error kinds; this map classifies each
embedded exception class under the kind the specification assigns to the
failure that raises it (the magic-tag `MobiException` and the
`struct.error` of a short section table are both `InvalidFormat`). -/
inductive ErrorKind where
  | invalidFormat
  | indexOutOfRange
  | unknownField
  | decodeError
deriving DecidableEq, Repr

/-- Modelled from the spec: classification of embedded exception classes
under the error kinds of specification section 7. -/
def errKind : MobiError → ErrorKind
  | .mobiException => .invalidFormat
  | .structError => .invalidFormat
  | .indexError => .indexOutOfRange
  | .attributeError => .unknownField
  | .unicodeDecodeError => .decodeError

/-- Lift an `Option` to `Except`, failing with `struct.error` (the
exception `struct.unpack` raises on a short slice). -/
def optExc {α : Type} (o : Option α) : Except MobiError α :=
  match o with
  | some v => Except.ok v
  | none => Except.error MobiError.structError

/-- `struct.unpack` of one big-endian `w`-byte field at `off` of `s`,
as performed on `s[off:off+w]`. -/
def unpackExc (w : Nat) (s : ByteSeq) (off : Nat) : Except MobiError Nat :=
  optExc (unpackBE w (pySlice s off (off + w)))

/-- `struct.unpack_from('>L', s, off)`: requires only that the buffer
reaches `off + w`, reading `w` bytes there. -/
def unpackFromExc (w : Nat) (s : ByteSeq) (off : Nat) : Except MobiError Nat :=
  if off + w ≤ s.length then Except.ok (beVal (pySlice s off (off + w)))
  else Except.error MobiError.structError

/-- `struct.unpack('>II', s[off:off+8])`: two 4-byte big-endian values. -/
def unpack2x4 (s : ByteSeq) (off : Nat) : Option (Nat × Nat) :=
  let sl := pySlice s off (off + 8)
  if sl.length = 8 then some (beVal (sl.take 4), beVal (sl.drop 4)) else none

/-- Python dict assignment `d[k] = v`: replaces the binding if the key is
present, otherwise appends it. -/
def dictInsert (d : List (Nat × ByteSeq)) (k : Nat) (v : ByteSeq) :
    List (Nat × ByteSeq) :=
  if d.any (fun p => p.1 == k) then d.map (fun p => if p.1 == k then (k, v) else p)
  else d ++ [(k, v)]

/-- Python `d.get(k, dflt)`. -/
def dictGet (d : List (Nat × ByteSeq)) (k : Nat) (dflt : ByteSeq) : ByteSeq :=
  match d.find? (fun p => p.1 == k) with
  | some p => p.2
  | none => dflt

/-- The codec name `windows-1252` (the value of `DEFAULT_ENCODING`). -/
def encW1252 : String := "windows-1252"

/-- The codec name `utf-8`. -/
def encUTF8 : String := "utf-8"

/-- `CODEPAGE_MAP.get(cp, DEFAULT_ENCODING)`: codec selected by the
`mobi_codepage` header field. -/
def codepageEnc (cp : Nat) : String :=
  match cp with
  | 1252 => encW1252
  | 65001 => encUTF8
  | _ => encW1252

/-- One byte of the strict `windows-1252` codec: identity outside
`0x80..0x9F`, the Windows table inside it, failing on the five bytes the
codec leaves undefined (`0x81, 0x8D, 0x8F, 0x90, 0x9D`). -/
def cp1252DecodeByte (b : Nat) : Option Nat :=
  if b < 0x80 then some b
  else if 0xA0 ≤ b then some b
  else match b with
    | 0x80 => some 0x20AC
    | 0x82 => some 0x201A
    | 0x83 => some 0x0192
    | 0x84 => some 0x201E
    | 0x85 => some 0x2026
    | 0x86 => some 0x2020
    | 0x87 => some 0x2021
    | 0x88 => some 0x02C6
    | 0x89 => some 0x2030
    | 0x8A => some 0x0160
    | 0x8B => some 0x2039
    | 0x8C => some 0x0152
    | 0x8E => some 0x017D
    | 0x91 => some 0x2018
    | 0x92 => some 0x2019
    | 0x93 => some 0x201C
    | 0x94 => some 0x201D
    | 0x95 => some 0x2022
    | 0x96 => some 0x2013
    | 0x97 => some 0x2014
    | 0x98 => some 0x02DC
    | 0x99 => some 0x2122
    | 0x9A => some 0x0161
    | 0x9B => some 0x203A
    | 0x9C => some 0x0153
    | 0x9E => some 0x017E
    | 0x9F => some 0x0178
    | _ => none

/-- Decode every byte with a one-byte codec, failing if any byte fails. -/
def decodeAll : ByteSeq → (Nat → Option Nat) → Option (List Nat)
  | [], _ => some []
  | b :: rest, f =>
    match f b with
    | none => none
    | some c =>
      match decodeAll rest f with
      | none => none
      | some cs => some (c :: cs)

/-- Strict `windows-1252` decoding of a byte string into code points. -/
def cp1252Decode (bs : ByteSeq) : Option (List Nat) := decodeAll bs cp1252DecodeByte

/-- Is `b` a UTF-8 continuation byte. -/
def utf8Cont (b : Nat) : Bool := 0x80 ≤ b && b < 0xC0

/-- Fuelled strict UTF-8 decoder; the fuel only bounds recursion and
`utf8Decode` supplies enough of it for any input. -/
def utf8DecodeGo : Nat → ByteSeq → Option (List Nat)
  | _, [] => some []
  | 0, _ :: _ => none
  | fuel + 1, b :: rest =>
    if b < 0x80 then (utf8DecodeGo fuel rest).map (fun l => b :: l)
    else if 0xC2 ≤ b ∧ b ≤ 0xDF then
      match rest with
      | b1 :: r =>
        if utf8Cont b1 then
          (utf8DecodeGo fuel r).map (fun l => ((b - 0xC0) * 64 + (b1 - 0x80)) :: l)
        else none
      | [] => none
    else if 0xE0 ≤ b ∧ b ≤ 0xEF then
      match rest with
      | b1 :: b2 :: r =>
        if (if b = 0xE0 then 0xA0 ≤ b1 && b1 ≤ 0xBF
            else if b = 0xED then 0x80 ≤ b1 && b1 ≤ 0x9F
            else utf8Cont b1) && utf8Cont b2 then
          (utf8DecodeGo fuel r).map
            (fun l => ((b - 0xE0) * 4096 + (b1 - 0x80) * 64 + (b2 - 0x80)) :: l)
        else none
      | _ => none
    else if 0xF0 ≤ b ∧ b ≤ 0xF4 then
      match rest with
      | b1 :: b2 :: b3 :: r =>
        if (if b = 0xF0 then 0x90 ≤ b1 && b1 ≤ 0xBF
            else if b = 0xF4 then 0x80 ≤ b1 && b1 ≤ 0x8F
            else utf8Cont b1) && utf8Cont b2 && utf8Cont b3 then
          (utf8DecodeGo fuel r).map
            (fun l => ((b - 0xF0) * 262144 + (b1 - 0x80) * 4096 +
                        (b2 - 0x80) * 64 + (b3 - 0x80)) :: l)
        else none
      | _ => none
    else none

/-- Strict UTF-8 decoding of a byte string into code points. -/
def utf8Decode (bs : ByteSeq) : Option (List Nat) := utf8DecodeGo bs.length bs

/-- `unicode(bs, enc)`: decode under the codec name resolved by
`codepageEnc` (`utf-8` or the `windows-1252` default). -/
def decodeBytes (enc : String) (bs : ByteSeq) : Option (List Nat) :=
  if enc = encUTF8 then utf8Decode bs else cp1252Decode bs

/-- ASCII whitespace, the set stripped by Python byte-string `strip()`. -/
def isPySpace (b : Nat) : Bool :=
  b == 32 || b == 9 || b == 10 || b == 11 || b == 12 || b == 13

/-- Python byte-string `strip()`. -/
def stripBytes (bs : ByteSeq) : ByteSeq :=
  ((bs.dropWhile isPySpace).reverse.dropWhile isPySpace).reverse

/-- Python 2 unicode whitespace, the set stripped by `unicode.strip()`. -/
def isPyUnicodeSpace (c : Nat) : Bool :=
  (9 ≤ c && c ≤ 13) || (0x1C ≤ c && c ≤ 0x1F) || c == 32 || c == 0x85 ||
    c == 0xA0 || c == 0x1680 || c == 0x180E || (0x2000 ≤ c && c ≤ 0x200B) ||
    c == 0x2028 || c == 0x2029 || c == 0x202F || c == 0x205F || c == 0x3000

/-- Python 2 `unicode.strip()` on a code point sequence. -/
def stripCps (cs : List Nat) : List Nat :=
  ((cs.dropWhile isPyUnicodeSpace).reverse.dropWhile isPyUnicodeSpace).reverse

/-- Python `s.split(sep)[0]` for the one-byte separator NUL. -/
def takeUntilNul (bs : ByteSeq) : ByteSeq := bs.takeWhile (fun b => b ≠ 0)

/-- Fuelled digit expansion; `natToDecimal` supplies fuel `n + 1`, which
always suffices because the argument at least halves each step. -/
def natToDecimalGo : Nat → Nat → List Nat
  | 0, _ => []
  | fuel + 1, n =>
    if n < 10 then [48 + n]
    else natToDecimalGo fuel (n / 10) ++ [48 + n % 10]

/-- ASCII bytes of `str(n)` for a nonnegative Python integer. -/
def natToDecimal (n : Nat) : List Nat := natToDecimalGo (n + 1) n

/-- One section descriptor, as built by `parseSections` from
`struct.unpack('>LBBBB', ...)`: `(offset, flags, uniqueID)`. -/
structure PdbSection where
  offset : Nat
  flags : Nat
  uniqueID : Nat
deriving DecidableEq, Repr

/-- One iteration of the `parseSections` loop: unpack the 8-byte
descriptor `data[78+i*8 : 78+i*8+8]`, failing like `struct.unpack` when
the slice is short. -/
def parseDescriptor (data : ByteSeq) (i : Nat) : Option PdbSection :=
  let s := pySlice data (78 + i * 8) (78 + i * 8 + 8)
  if s.length = 8 then
    some { offset := beVal (s.take 4), flags := s.getD 4 0,
           uniqueID := (s.getD 5 0) * 65536 + (s.getD 6 0) * 256 + s.getD 7 0 }
  else none

/-- Run an option-valued function over a list, failing at the first
failure (the loop in `parseSections` raising at the first short read). -/
def omapListD : List Nat → (Nat → Option PdbSection) → Option (List PdbSection)
  | [], _ => some []
  | i :: is, f =>
    (f i).bind fun s => (omapListD is f).bind fun rest => some (s :: rest)

/-- `MobiBook.parseSections` after the section count has been read:
build the descriptor list for indices `0 .. n-1`. -/
def parseSectionList (data : ByteSeq) (n : Nat) : Option (List PdbSection) :=
  omapListD (List.range n) (parseDescriptor data)

/-- `MobiBook.loadSection`: slice from this section offset to the next
section offset, or to the end of the file for the last section; indexing
an absent descriptor raises `IndexError` exactly where the Python list
indexing would. -/
def loadSection (data : ByteSeq) (sections : List PdbSection)
    (num_sections : Nat) (i : Nat) : Except MobiError ByteSeq :=
  if i + 1 = num_sections then
    match sections.get? i with
    | some s => Except.ok (pySlice data s.offset data.length)
    | none => Except.error MobiError.indexError
  else
    match sections.get? (i + 1) with
    | none => Except.error MobiError.indexError
    | some s1 =>
      match sections.get? i with
      | none => Except.error MobiError.indexError
      | some s0 => Except.ok (pySlice data s0.offset s1.offset)

/-- The record walk of `MobiBook.processEXTH`: starting at `pos`, run the
given number of iterations; each one unpacks the record header
`(tag, totalSize)` from `exth[pos:pos+8]`, slices the payload
`exth[pos+8:pos+totalSize]`, and advances by `totalSize`.  Returns the
records handed to the callback in order (including those stored before a
failure), the success flag (false exactly when a header unpack raises),
and the final cursor. -/
def exthWalk (exth : ByteSeq) : Nat → Nat → List (Nat × Nat × ByteSeq) × Bool × Nat
  | 0, pos => ([], true, pos)
  | n + 1, pos =>
    let hdr := pySlice exth pos (pos + 8)
    if hdr.length = 8 then
      let ty := beVal (hdr.take 4)
      let size := beVal (hdr.drop 4)
      let w := exthWalk exth n (pos + size)
      ((ty, size, pySlice exth (pos + 8) (pos + size)) :: w.1, w.2.1, w.2.2)
    else ([], false, pos)

/-- `MobiBook.storeEXTH` applied to every walked record in order:
`self.meta_array[exth_type] = content`. -/
def dictInsertAll (d : List (Nat × ByteSeq)) (rs : List (Nat × Nat × ByteSeq)) :
    List (Nat × ByteSeq) :=
  rs.foldl (fun acc r => dictInsert acc r.1 r.2.2) d

/-- `MobiBook.processEXTH` on the slice `exth`: returns the metadata
dict after all executed callbacks together with the Python truthiness of
the return value (`None` for a missing or short `EXTH` tag, `False` when
the walk raises, `True` on completion).  Total: the `try`/`except`
absorbs every exception of the walk. -/
def processEXTHSlice (exth : ByteSeq) (meta0 : List (Nat × ByteSeq)) :
    List (Nat × ByteSeq) × Bool :=
  if exth.length < 12 ∨ exth.take 4 ≠ exthTag then (meta0, false)
  else
    let nitems := beVal (pySlice exth 8 12)
    let w := exthWalk exth nitems 12
    (dictInsertAll meta0 w.1, w.2.1)

/-- `MobiBook.processEXTH`: works on `self.record0[self.exth_off:]`. -/
def processEXTH (record0 : ByteSeq) (off : Nat) (meta0 : List (Nat × ByteSeq)) :
    List (Nat × ByteSeq) × Bool :=
  processEXTHSlice (record0.drop off) meta0

/-- The tail of `MobiBook.parseMobiHeader`: when bit `0x40` of the EXTH
flag is set, run `processEXTH` and keep its dict only when it returned
truthily, resetting `self.meta_array = {}` otherwise; when the bit is
clear the dict stays at its initial `{}`. -/
def metaFromEXTH (record0 : ByteSeq) (off flag : Nat) : List (Nat × ByteSeq) :=
  if Nat.land flag 0x40 ≠ 0 then
    let r := processEXTH record0 off []
    if r.2 then r.1 else []
  else []

/-- Conditional read of `extra_data_flags` in `parseMobiHeader`: the two
bytes at `0xF2` are unpacked only when `mobi_length >= 0xE4` and
`mobi_version >= 5`; otherwise the field keeps its default `0`. -/
def extraDataFlagsRead (r : ByteSeq) (ml mv : Nat) : Except MobiError Nat :=
  if 0xE4 ≤ ml ∧ 5 ≤ mv then unpackExc 2 r 0xF2 else Except.ok 0

/-- The attributes of a fully constructed `MobiBook` object. -/
structure MobiBook where
  data_file : ByteSeq
  header : ByteSeq
  magic : ByteSeq
  num_sections : Nat
  sections : List PdbSection
  record0 : ByteSeq
  compression : Nat
  txt_records : Nat
  firstimg : Nat
  extra_data_flags : Nat
  meta_array : List (Nat × ByteSeq)
  mobi_length : Nat
  mobi_codepage : Nat
  mobi_version : Nat
  crypto_type : Nat
  exth_off : Nat
  drm_ptr : Nat
  drm_count : Nat
  drm_size : Nat
  print_replica : Bool
deriving DecidableEq, Repr

/-- `MobiBook.__init__` (including `parseSections` and
`parseMobiHeader`) on the whole file contents: every uncaught Python
exception surfaces as the corresponding `MobiError` and no object is
produced; on success all attributes hold their final values. -/
def makeBook (data : ByteSeq) : Except MobiError MobiBook :=
  let header := pySlice data 0 78
  let magic := pySlice header 0x3C (0x3C + 8)
  if magic ≠ bookmobiTag then Except.error MobiError.mobiException else
  unpackExc 2 header 76 >>= fun num_sections =>
  optExc (parseSectionList data num_sections) >>= fun sections =>
  loadSection data sections num_sections 0 >>= fun record0 =>
  unpackExc 2 record0 0x0 >>= fun compression =>
  unpackExc 2 record0 0x8 >>= fun txt_records =>
  unpackExc 4 record0 0x14 >>= fun mobi_length =>
  unpackExc 4 record0 0x1C >>= fun mobi_codepage =>
  unpackExc 4 record0 0x68 >>= fun mobi_version =>
  unpackFromExc 4 record0 0x6C >>= fun firstimg =>
  extraDataFlagsRead record0 mobi_length mobi_version >>= fun extra_data_flags =>
  unpackExc 2 record0 0xC >>= fun crypto_type =>
  unpackExc 4 record0 0xA8 >>= fun drm_ptr =>
  unpackExc 4 record0 0xAC >>= fun drm_count =>
  unpackExc 4 record0 0xB0 >>= fun drm_size =>
  unpackExc 4 record0 0xB4 >>= fun _reserved =>
  unpackExc 4 record0 0x80 >>= fun exth_flag =>
  Except.ok
    { data_file := data, header := header, magic := magic,
      num_sections := num_sections, sections := sections, record0 := record0,
      compression := compression, txt_records := txt_records,
      firstimg := firstimg, extra_data_flags := extra_data_flags,
      meta_array := metaFromEXTH record0 (mobi_length + 16) exth_flag,
      mobi_length := mobi_length, mobi_codepage := mobi_codepage,
      mobi_version := mobi_version, crypto_type := crypto_type,
      exth_off := mobi_length + 16, drm_ptr := drm_ptr,
      drm_count := drm_count, drm_size := drm_size, print_replica := false }

/-- `EXTH_RMAP_STRINGS`: the lower-cased field name to tag table
(the inverse of `EXTH_MAP_STRINGS`). -/
def EXTH_RMAP : List (String × Nat) :=
  [("creator", 100), ("publisher", 101), ("imprint", 102),
   ("description", 103), ("isbn", 104), ("subject", 105),
   ("published", 106), ("review", 107), ("contributor", 108),
   ("rights", 109), ("subjectcode", 110), ("type", 111),
   ("source", 112), ("asin", 113), ("startoffset", 116),
   ("price", 118), ("currency", 119), ("coveroffset", 201),
   ("islibraryrental", 406), ("updatedtitle", 503)]

/-- Membership test and lookup in `EXTH_RMAP_STRINGS`. -/
def lookupTag (name : String) : Option Nat :=
  (EXTH_RMAP.find? (fun p => p.1 == name)).map (fun p => p.2)

/-- `EXTH_MAP_CONVERSIONS`: tags `116` and `201` unpack as `>I`
(4 bytes), tag `406` as `>Q` (8 bytes); the width in bytes. -/
def convWidth (tag : Nat) : Option Nat :=
  if tag = 116 ∨ tag = 201 then some 4
  else if tag = 406 then some 8
  else none

/-- The field name `updatedtitle`. -/
def fnUpdatedtitle : String := "updatedtitle"

/-- `MobiBook.__getattr__(name)`: reject names outside the static table
with `AttributeError`; fetch the raw record (empty when absent); apply
the registered numeric conversion when the raw value is non-empty
(raising `struct.error` on a width mismatch, like `struct.unpack`);
decode the result under the codec resolved from `mobi_codepage`
(raising `UnicodeDecodeError` on undecodable bytes). -/
def getattrRaw (b : MobiBook) (name : String) : Except MobiError (List Nat) :=
  match lookupTag name with
  | none => Except.error MobiError.attributeError
  | some tag =>
    let v := dictGet b.meta_array tag []
    (match convWidth tag with
     | some w =>
       if v = [] then Except.ok v
       else
         match unpackBE w v with
         | some n => Except.ok (natToDecimal n)
         | none => Except.error MobiError.structError
     | none => Except.ok v) >>= fun v2 =>
    match decodeBytes (codepageEnc b.mobi_codepage) v2 with
    | some cps => Except.ok cps
    | none => Except.error MobiError.unicodeDecodeError

/-- Stage 3 of `MobiBook.title`: byte-strip the first 32 header bytes,
split at the first NUL, decode the first segment.  Note the code does
not strip again after this decode. -/
def titleStage3 (b : MobiBook) : Except MobiError (List Nat) :=
  match decodeBytes (codepageEnc b.mobi_codepage)
      (takeUntilNul (stripBytes (pySlice b.header 0 32))) with
  | none => Except.error MobiError.unicodeDecodeError
  | some t => Except.ok t

/-- `MobiBook.title`: take `self.updatedtitle`; when that is empty
(tested before any stripping) decode the `(offset, length)` range
declared at `0x54` of section 0; strip the result of whichever branch
ran; when the stripped text is empty fall back to the PDB header name. -/
def titleOf (b : MobiBook) : Except MobiError (List Nat) :=
  getattrRaw b fnUpdatedtitle >>= fun t0 =>
  (if t0 = [] then
     match unpack2x4 b.record0 0x54 with
     | none => Except.error MobiError.structError
     | some (toff, tlen) =>
       match decodeBytes (codepageEnc b.mobi_codepage)
           (pySlice b.record0 toff (toff + tlen)) with
       | none => Except.error MobiError.unicodeDecodeError
       | some t => Except.ok t
   else Except.ok t0) >>= fun t1 =>
  if stripCps t1 = [] then titleStage3 b else Except.ok (stripCps t1)

/-- Every header read attempted by `exthWalk` from `pos` for the given
iteration count finds its full 8 bytes (whatever the declared sizes). -/
def exthHeadersOK (exth : ByteSeq) : Nat → Nat → Bool
  | 0, _ => true
  | n + 1, pos =>
    let hdr := pySlice exth pos (pos + 8)
    if hdr.length = 8 then
      exthHeadersOK exth n (pos + beVal (hdr.drop 4))
    else false

/-- Well-formedness of an EXTH record stream from `pos`: every record
header is fully readable, declares a total size of at least the 8 header
bytes, and its payload lies inside the slice. -/
def exthWF (exth : ByteSeq) : Nat → Nat → Bool
  | 0, _ => true
  | n + 1, pos =>
    let hdr := pySlice exth pos (pos + 8)
    if hdr.length = 8 ∧ 8 ≤ beVal (hdr.drop 4) ∧ pos + beVal (hdr.drop 4) ≤ exth.length then
      exthWF exth n (pos + beVal (hdr.drop 4))
    else false

/-- Sum of the declared total sizes of a walked record list. -/
def sumSizes (rs : List (Nat × Nat × ByteSeq)) : Nat :=
  (rs.map (fun r => r.2.1)).sum

/-- A run of zero bytes. -/
def pad (n : Nat) : ByteSeq := List.replicate n 0

/-- Two bytes, big-endian. -/
def be2 (n : Nat) : ByteSeq := [n / 256 % 256, n % 256]

/-- Four bytes, big-endian. -/
def be4 (n : Nat) : ByteSeq :=
  [n / 16777216 % 256, n / 65536 % 256, n / 256 % 256, n % 256]

/-- Section 0 of a small test document: `mobi_length = ml`,
`mobi_version = ver`, codepage 1252, EXTH flag bit `0x40` set, the title
range at `0x54` pointing at the byte `A` stored at offset 184, and the
given EXTH block placed at offset `ml + 16`.  Needs `185 ≤ ml + 16`. -/
def mkRecord0 (ml ver : Nat) (exthBlock : ByteSeq) : ByteSeq :=
  be2 1 ++ pad 6 ++ be2 1 ++ pad 2 ++ be2 0 ++ pad 6 ++ be4 ml ++ pad 4 ++
  be4 1252 ++ pad 52 ++ be4 184 ++ be4 1 ++ pad 12 ++ be4 ver ++ be4 0 ++
  pad 16 ++ be4 64 ++ pad 36 ++ pad 16 ++ [65] ++ pad (ml + 16 - 185) ++ exthBlock

/-- A complete two-section test file: PDB name `B`, `BOOKMOBI` magic,
section 0 at offset 94 holding `mkRecord0`, section 1 empty at the end
of the file. -/
def mkTestData (ml ver : Nat) (exthBlock : ByteSeq) : ByteSeq :=
  ([66] ++ pad 31) ++ pad 28 ++ bookmobiTag ++ pad 8 ++ be2 2 ++
  be4 94 ++ [0, 0, 0, 0] ++ be4 (94 + (mkRecord0 ml ver exthBlock).length) ++
  [0, 0, 0, 1] ++ mkRecord0 ml ver exthBlock

/-- A `MobiBook` with every attribute empty, used as the default of the
extraction functions below. -/
def emptyBook : MobiBook :=
  { data_file := [], header := [], magic := [], num_sections := 0,
    sections := [], record0 := [], compression := 0, txt_records := 0,
    firstimg := 0, extra_data_flags := 0, meta_array := [], mobi_length := 0,
    mobi_codepage := 0, mobi_version := 0, crypto_type := 0, exth_off := 0,
    drm_ptr := 0, drm_count := 0, drm_size := 0, print_replica := false }

/-- Test file with a corrupt EXTH block: it declares five records but
holds only one, so the walk runs out of header bytes. -/
def c1Data : ByteSeq :=
  mkTestData 200 6 (exthTag ++ be4 0 ++ be4 5 ++ be4 503 ++ be4 9 ++ [32])

/-- The document built from `c1Data`. -/
def c1Book : MobiBook :=
  match makeBook c1Data with
  | Except.ok b => b
  | Except.error _ => emptyBook

/-- Test file whose `updatedtitle` record holds a single space. -/
def c2Data : ByteSeq :=
  mkTestData 200 6 (exthTag ++ be4 0 ++ be4 1 ++ be4 503 ++ be4 9 ++ [32])

/-- The document built from `c2Data`. -/
def c2Book : MobiBook :=
  match makeBook c2Data with
  | Except.ok b => b
  | Except.error _ => emptyBook

/-- Test file whose `updatedtitle` record holds the letter `T`. -/
def c2bData : ByteSeq :=
  mkTestData 200 6 (exthTag ++ be4 0 ++ be4 1 ++ be4 503 ++ be4 9 ++ [84])

/-- The document built from `c2bData`. -/
def c2bBook : MobiBook :=
  match makeBook c2bData with
  | Except.ok b => b
  | Except.error _ => emptyBook

/-- Test file with `mobi_length = 0xE0` and `mobi_version = 6`: the
`extra_data_flags` condition is false although nonzero bytes sit at
offset `0xF2` of section 0 (inside the EXTH block). -/
def c8Data : ByteSeq := mkTestData 224 6 (exthTag ++ be4 0 ++ be4 0)

/-- The document built from `c8Data`. -/
def c8Book : MobiBook :=
  match makeBook c8Data with
  | Except.ok b => b
  | Except.error _ => emptyBook

/-- An 80-byte buffer with a valid magic that declares 3 sections but is
far shorter than the `78 + 3*8` bytes the table needs. -/
def c6Data : ByteSeq :=
  ([66] ++ pad 31) ++ pad 28 ++ bookmobiTag ++ pad 8 ++ be2 3 ++ pad 2

/-- A 78-byte buffer of zeros: the magic check fails. -/
def c7Data : ByteSeq := pad 78

/-- A 78-byte buffer with a valid magic and a declared section count of
zero. -/
def c9Data : ByteSeq :=
  ([66] ++ pad 31) ++ pad 28 ++ bookmobiTag ++ pad 8 ++ be2 0

/-- A well-formed EXTH block with two records of sizes 9 and 10. -/
def exth5 : ByteSeq :=
  exthTag ++ be4 0 ++ be4 2 ++ be4 100 ++ be4 9 ++ [65] ++
  be4 101 ++ be4 10 ++ [66, 67]

/-- An EXTH block declaring three records whose single stored header has
total size 0, so the same header is read three times. -/
def exth10 : ByteSeq := exthTag ++ be4 0 ++ be4 3 ++ be4 100 ++ be4 0

/-- A document whose metadata index holds a 4-byte `StartOffset`, an
8-byte `IsLibraryRental` and an empty `Publisher`, under codepage
65001. -/
def b3 : MobiBook :=
  { emptyBook with
    meta_array := [(116, [0, 0, 0, 77]), (406, [0, 0, 0, 0, 0, 0, 1, 0]), (101, [])],
    mobi_codepage := 65001 }

/-! ### Basic lemmas about the embedding primitives -/

theorem pySlice_length (xs : ByteSeq) (a b : Nat) :
    (pySlice xs a b).length = min b xs.length - a := by
  simp [pySlice]

theorem pySlice_nil_of_le (xs : ByteSeq) {a b : Nat} (h : b ≤ a) :
    pySlice xs a b = [] := by
  apply List.eq_nil_of_length_eq_zero
  rw [pySlice_length]
  omega

theorem pySlice_in_header (data : ByteSeq) (a b : Nat) (hb : b ≤ 78) :
    pySlice (pySlice data 0 78) a b = pySlice data a b := by
  simp [pySlice, List.take_take, Nat.min_eq_left hb]

theorem except_bind_ok {ε α β : Type} {x : Except ε α} {f : α → Except ε β} {b : β} :
    (x >>= f = Except.ok b) ↔ ∃ a, x = Except.ok a ∧ f a = Except.ok b := by
  cases x with
  | error e => simp [Bind.bind, Except.bind]
  | ok a => simp [Bind.bind, Except.bind]

theorem ok_bind {ε α β : Type} (a : α) (f : α → Except ε β) :
    (Except.ok a >>= f) = f a := rfl

theorem error_bind {ε α β : Type} (e : ε) (f : α → Except ε β) :
    ((Except.error e : Except ε α) >>= f) = Except.error e := rfl

theorem optExc_ok {α : Type} {o : Option α} {v : α} :
    optExc o = Except.ok v ↔ o = some v := by
  cases o <;> simp [optExc]

theorem get?_some_lt {α : Type} {l : List α} {n : Nat} {a : α}
    (h : l.get? n = some a) : n < l.length := by
  by_contra hn
  rw [List.get?_eq_none.mpr (by omega)] at h
  cases h

theorem unpackExc_ok {w : Nat} {s : ByteSeq} {off v : Nat} :
    unpackExc w s off = Except.ok v ↔
      unpackBE w (pySlice s off (off + w)) = some v := by
  unfold unpackExc
  exact optExc_ok

theorem omapListD_length : ∀ (l : List Nat) (f : Nat → Option PdbSection)
    (l' : List PdbSection), omapListD l f = some l' → l'.length = l.length := by
  intro l
  induction l with
  | nil =>
    intro f l' h
    simp only [omapListD, Option.some.injEq] at h
    simp [← h]
  | cons i is ih =>
    intro f l' h
    simp only [omapListD, Option.bind_eq_some, Option.some.injEq] at h
    obtain ⟨s, _, rest, hrest, hl⟩ := h
    subst hl
    simp [ih f rest hrest]

theorem omapListD_none : ∀ (l : List Nat) (f : Nat → Option PdbSection) (i0 : Nat),
    i0 ∈ l → f i0 = none → omapListD l f = none := by
  intro l
  induction l with
  | nil => intro f i0 hmem _; cases hmem
  | cons i is ih =>
    intro f i0 hmem hf
    simp only [omapListD]
    rcases List.mem_cons.mp hmem with h | h
    · subst h
      rw [hf]
      rfl
    · cases hfi : f i with
      | none => rfl
      | some s => simp [ih f i0 h hf]

/-! ### Lemmas about the EXTH record walk -/

theorem exthWalk_ok_eq (exth : ByteSeq) :
    ∀ (n pos : Nat), (exthWalk exth n pos).2.1 = exthHeadersOK exth n pos := by
  intro n
  induction n with
  | zero => intro pos; rfl
  | succ n ih =>
    intro pos
    simp only [exthWalk, exthHeadersOK]
    split
    · exact ih _
    · rfl

theorem exthWalk_length (exth : ByteSeq) :
    ∀ (n pos : Nat), exthHeadersOK exth n pos = true →
      (exthWalk exth n pos).1.length = n := by
  intro n
  induction n with
  | zero => intro pos _; rfl
  | succ n ih =>
    intro pos h
    simp only [exthHeadersOK] at h
    simp only [exthWalk]
    split
    · rename_i h8
      simp only [List.length_cons]
      rw [if_pos h8] at h
      rw [ih _ h]
    · rename_i h8
      rw [if_neg h8] at h
      cases h

theorem exthWF_walk (exth : ByteSeq) :
    ∀ (n pos : Nat), exthWF exth n pos = true →
      (exthWalk exth n pos).2.1 = true ∧
      (exthWalk exth n pos).1.length = n ∧
      (exthWalk exth n pos).2.2 = pos + sumSizes (exthWalk exth n pos).1 ∧
      ∀ r ∈ (exthWalk exth n pos).1, r.2.2.length = r.2.1 - 8 := by
  intro n
  induction n with
  | zero =>
    intro pos _
    refine ⟨rfl, rfl, by simp [exthWalk, sumSizes], by simp [exthWalk]⟩
  | succ n ih =>
    intro pos h
    simp only [exthWF] at h
    split at h
    case isFalse => cases h
    case isTrue hc =>
      obtain ⟨h8, hsz, hbound⟩ := hc
      obtain ⟨ihok, ihlen, ihfin, ihmem⟩ := ih _ h
      simp only [exthWalk]
      rw [if_pos h8]
      refine ⟨ihok, by simp [ihlen], ?_, ?_⟩
      · simp only [sumSizes, List.map_cons, List.sum_cons]
        simp only [sumSizes] at ihfin
        omega
      · intro r hr
        rcases List.mem_cons.mp hr with hr | hr
        · subst hr
          simp only
          rw [pySlice_length, Nat.min_eq_left hbound]
          omega
        · exact ihmem r hr

/-! ### Text decoding lemmas -/

theorem decodeAll_ascii : ∀ (bs : ByteSeq), (∀ x ∈ bs, x < 128) →
    decodeAll bs cp1252DecodeByte = some bs := by
  intro bs
  induction bs with
  | nil => intro _; rfl
  | cons b rest ih =>
    intro h
    have hb : cp1252DecodeByte b = some b := by
      unfold cp1252DecodeByte
      rw [if_pos (h b (by simp))]
    have hrest := ih (fun x hx => h x (by simp [hx]))
    simp [decodeAll, hb, hrest]

theorem utf8DecodeGo_ascii : ∀ (bs : ByteSeq) (fuel : Nat), bs.length ≤ fuel →
    (∀ x ∈ bs, x < 128) → utf8DecodeGo fuel bs = some bs := by
  intro bs
  induction bs with
  | nil =>
    intro fuel _ _
    cases fuel <;> rfl
  | cons b rest ih =>
    intro fuel hlen h
    cases fuel with
    | zero => simp at hlen
    | succ f =>
      have hb : b < 0x80 := h b (by simp)
      simp only [utf8DecodeGo]
      rw [if_pos hb]
      rw [ih f (by simpa using hlen) (fun x hx => h x (by simp [hx]))]
      rfl

theorem decodeBytes_ascii (enc : String) (bs : ByteSeq) (h : ∀ x ∈ bs, x < 128) :
    decodeBytes enc bs = some bs := by
  unfold decodeBytes
  split
  · exact utf8DecodeGo_ascii bs bs.length (Nat.le_refl _) h
  · exact decodeAll_ascii bs h

theorem natToDecimalGo_lt : ∀ (fuel n : Nat), ∀ d ∈ natToDecimalGo fuel n, d < 128 := by
  intro fuel
  induction fuel with
  | zero => intro n d hd; cases hd
  | succ fuel ih =>
    intro n d hd
    simp only [natToDecimalGo] at hd
    split at hd
    · rename_i h
      simp at hd
      omega
    · rw [List.mem_append] at hd
      rcases hd with hd | hd
      · exact ih (n / 10) d hd
      · simp at hd
        have := Nat.mod_lt n (y := 10) (by omega)
        omega

theorem natToDecimal_lt : ∀ (n : Nat), ∀ d ∈ natToDecimal n, d < 128 := by
  intro n
  exact natToDecimalGo_lt (n + 1) n

/-! ### Inversion of a successful construction -/

theorem makeBook_ok_inv {data : ByteSeq} {b : MobiBook}
    (h : makeBook data = Except.ok b) :
    b.data_file = data ∧
    b.header = pySlice data 0 78 ∧
    b.num_sections = b.sections.length ∧
    b.exth_off = b.mobi_length + 16 ∧
    extraDataFlagsRead b.record0 b.mobi_length b.mobi_version =
      Except.ok b.extra_data_flags ∧
    ∃ flag, unpackBE 4 (pySlice b.record0 0x80 0x84) = some flag ∧
      b.meta_array = metaFromEXTH b.record0 (b.mobi_length + 16) flag := by
  simp only [makeBook] at h
  split at h
  · exact absurd h (by simp)
  · simp only [except_bind_ok] at h
    obtain ⟨ns, hns, secs, hsecs, r0, hr0, comp, hcomp, txt, htxt, ml, hml, cp, hcp,
      mv, hmv, fi, hfi, ex, hex, cr, hcr, d1, hd1, d2, hd2, d3, hd3, d4, hd4,
      fl, hfl, hfin⟩ := h
    injection hfin with hb
    subst hb
    refine ⟨rfl, rfl, ?_, rfl, hex, fl, ?_, rfl⟩
    · have := omapListD_length (List.range ns) (parseDescriptor data) secs
        (optExc_ok.mp hsecs)
      simp [parseSectionList] at this ⊢
      omega
    · exact unpackExc_ok.mp hfl

/-! ### Claim theorems -/

/-- C7: for every input buffer whose 8 bytes at offset `0x3C` are not the
exact literal container tag `BOOKMOBI`, construction fails with the
exception the spec classifies as `InvalidFormat`, before any further
parsing (the magic check is the first test in `makeBook`, so no section
table is read), and no document object is produced (`Except.error`
carries no `MobiBook`). -/
theorem c7_bad_magic_rejected :
    ∀ data : ByteSeq, pySlice data 0x3C (0x3C + 8) ≠ bookmobiTag →
      makeBook data = Except.error MobiError.mobiException ∧
      errKind MobiError.mobiException = ErrorKind.invalidFormat := by
  intro data h
  refine ⟨?_, rfl⟩
  have hm : pySlice (pySlice data 0 78) 0x3C (0x3C + 8) ≠ bookmobiTag := by
    rw [pySlice_in_header data 0x3C (0x3C + 8) (by omega)]
    exact h
  simp only [makeBook]
  rw [if_pos hm]

theorem c7_witness :
    pySlice c7Data 0x3C (0x3C + 8) ≠ bookmobiTag ∧
    makeBook c7Data = Except.error MobiError.mobiException :=
  ⟨by decide, (c7_bad_magic_rejected c7Data (by decide)).1⟩

/-- C6: for every input buffer with a valid magic whose declared section
count requires more bytes than the buffer holds (length below
`78 + count*8`), the descriptor loop of `parseSections` hits a short
read, construction fails with the exception the spec classifies as
`InvalidFormat`, and no document object is produced. -/
theorem c6_short_section_table :
    ∀ data : ByteSeq, pySlice data 0x3C (0x3C + 8) = bookmobiTag →
      78 ≤ data.length →
      data.length < 78 + 8 * beVal (pySlice data 76 78) →
      makeBook data = Except.error MobiError.structError ∧
      errKind MobiError.structError = ErrorKind.invalidFormat := by
  intro data hm hlen hshort
  refine ⟨?_, rfl⟩
  simp only [makeBook]
  rw [if_neg (by rw [pySlice_in_header data 0x3C (0x3C + 8) (by omega)]; simp [hm])]
  have h76 : unpackExc 2 (pySlice data 0 78) 76 =
      Except.ok (beVal (pySlice data 76 78)) := by
    rw [unpackExc_ok, pySlice_in_header data 76 78 (by omega)]
    unfold unpackBE
    rw [if_pos (by rw [pySlice_length]; omega)]
  simp only [h76, ok_bind]
  have hsec : parseSectionList data (beVal (pySlice data 76 78)) = none := by
    unfold parseSectionList
    apply omapListD_none _ _ (beVal (pySlice data 76 78) - 1)
    · exact List.mem_range.mpr (by omega)
    · simp only [parseDescriptor]
      rw [if_neg (by rw [pySlice_length]; omega)]
  rw [hsec]
  rfl

theorem c6_witness :
    pySlice c6Data 0x3C (0x3C + 8) = bookmobiTag ∧
    78 ≤ c6Data.length ∧
    c6Data.length < 78 + 8 * beVal (pySlice c6Data 76 78) ∧
    makeBook c6Data = Except.error MobiError.structError :=
  ⟨by decide, by decide, by decide,
   (c6_short_section_table c6Data (by decide) (by decide) (by decide)).1⟩

/-- C9: for every input buffer that passes the magic check but declares
a section count of zero, `loadSection 0` indexes the nonexistent
descriptor 1 of the empty section table, construction raises the
embedded `IndexError`, and that exception is not one the spec classifies
as `InvalidFormat`. -/
theorem c9_zero_sections_index_error :
    ∀ data : ByteSeq, pySlice data 0x3C (0x3C + 8) = bookmobiTag →
      78 ≤ data.length → beVal (pySlice data 76 78) = 0 →
      makeBook data = Except.error MobiError.indexError ∧
      errKind MobiError.indexError ≠ ErrorKind.invalidFormat := by
  intro data hm hlen hzero
  refine ⟨?_, by simp [errKind]⟩
  simp only [makeBook]
  rw [if_neg (by rw [pySlice_in_header data 0x3C (0x3C + 8) (by omega)]; simp [hm])]
  have h76 : unpackExc 2 (pySlice data 0 78) 76 = Except.ok 0 := by
    rw [unpackExc_ok, pySlice_in_header data 76 78 (by omega)]
    unfold unpackBE
    rw [if_pos (by rw [pySlice_length]; omega), hzero]
  simp only [h76, ok_bind]
  rfl

theorem c9_witness :
    pySlice c9Data 0x3C (0x3C + 8) = bookmobiTag ∧
    78 ≤ c9Data.length ∧
    beVal (pySlice c9Data 76 78) = 0 ∧
    makeBook c9Data = Except.error MobiError.indexError :=
  ⟨by decide, by decide, by decide,
   (c9_zero_sections_index_error c9Data (by decide) (by decide) (by decide)).1⟩

/-- C4: for every archive, loading section `i` of `n = sections.length`
returns the bytes from `sections[i].offset` up to `sections[i+1].offset`
when a descriptor `i+1` exists, and up to the total document length when
`i + 1 = n` (the last section); and in every successfully constructed
document `num_sections` equals the length of the parsed section list, so
the two cases cover exactly the valid indices. -/
theorem c4_load_section_bounds :
    (∀ (data : ByteSeq) (sections : List PdbSection) (i : Nat) (s : PdbSection),
       sections.get? i = some s → i + 1 = sections.length →
       loadSection data sections sections.length i =
         Except.ok (pySlice data s.offset data.length)) ∧
    (∀ (data : ByteSeq) (sections : List PdbSection) (i : Nat) (s s1 : PdbSection),
       sections.get? i = some s → sections.get? (i + 1) = some s1 →
       loadSection data sections sections.length i =
         Except.ok (pySlice data s.offset s1.offset)) ∧
    (∀ (data : ByteSeq) (b : MobiBook), makeBook data = Except.ok b →
       b.num_sections = b.sections.length) := by
  refine ⟨?_, ?_, ?_⟩
  · intro data sections i s hs hlast
    unfold loadSection
    rw [if_pos hlast, hs]
  · intro data sections i s s1 hs hs1
    have hne : i + 1 ≠ sections.length := by
      have := get?_some_lt hs1
      omega
    unfold loadSection
    rw [if_neg hne, hs1, hs]
  · intro data b hmk
    exact (makeBook_ok_inv hmk).2.2.1

/-- The section table used by the witness of C4. -/
def sectionsW : List PdbSection := [⟨2, 0, 0⟩, ⟨4, 0, 1⟩]

theorem c4_witness :
    sectionsW.get? 0 = some ⟨2, 0, 0⟩ ∧
    sectionsW.get? 1 = some ⟨4, 0, 1⟩ ∧
    loadSection [10, 11, 12, 13, 14, 15] sectionsW sectionsW.length 0 =
      Except.ok [12, 13] ∧
    loadSection [10, 11, 12, 13, 14, 15] sectionsW sectionsW.length 1 =
      Except.ok [14, 15] :=
  ⟨rfl, rfl,
   c4_load_section_bounds.2.1 [10, 11, 12, 13, 14, 15] sectionsW 0 ⟨2, 0, 0⟩ ⟨4, 0, 1⟩ rfl rfl,
   c4_load_section_bounds.1 [10, 11, 12, 13, 14, 15] sectionsW 1 ⟨4, 0, 1⟩ rfl rfl⟩

/-- C5: for every well-formed EXTH block (valid `EXTH` tag and every
record fully readable), `processEXTH` takes the non-error path, the walk
starts at offset 12 and stores each walked record under its tag, the
number of records extracted equals the declared item count, each stored
payload has `totalSize - 8` bytes, and the final cursor (the consumed
slice length) is 12 plus the sum of the declared total sizes. -/
theorem c5_wellformed_exth_walk :
    ∀ (exth : ByteSeq) (meta0 : List (Nat × ByteSeq)),
      12 ≤ exth.length → exth.take 4 = exthTag →
      exthWF exth (beVal (pySlice exth 8 12)) 12 = true →
      processEXTHSlice exth meta0 =
        (dictInsertAll meta0 (exthWalk exth (beVal (pySlice exth 8 12)) 12).1, true) ∧
      (exthWalk exth (beVal (pySlice exth 8 12)) 12).1.length =
        beVal (pySlice exth 8 12) ∧
      (exthWalk exth (beVal (pySlice exth 8 12)) 12).2.2 =
        12 + sumSizes (exthWalk exth (beVal (pySlice exth 8 12)) 12).1 ∧
      ∀ r ∈ (exthWalk exth (beVal (pySlice exth 8 12)) 12).1,
        r.2.2.length = r.2.1 - 8 := by
  intro exth meta0 h12 htag hwf
  obtain ⟨hok, hlen, hfin, hmem⟩ := exthWF_walk exth _ 12 hwf
  refine ⟨?_, hlen, hfin, hmem⟩
  simp only [processEXTHSlice]
  rw [if_neg (by simp only [not_or, not_lt, not_ne_iff]; exact ⟨h12, htag⟩)]
  rw [hok]

theorem c5_witness :
    12 ≤ exth5.length ∧ exth5.take 4 = exthTag ∧
    exthWF exth5 (beVal (pySlice exth5 8 12)) 12 = true ∧
    processEXTHSlice exth5 [] =
      (dictInsertAll [] (exthWalk exth5 (beVal (pySlice exth5 8 12)) 12).1, true) ∧
    (exthWalk exth5 (beVal (pySlice exth5 8 12)) 12).1.length =
      beVal (pySlice exth5 8 12) :=
  ⟨by decide, by decide, by decide,
   (c5_wellformed_exth_walk exth5 [] (by decide) (by decide) (by decide)).1,
   (c5_wellformed_exth_walk exth5 [] (by decide) (by decide) (by decide)).2.1⟩

/-- C10: a record header declaring a total size below 8 does not abort
the walk: whenever each 8-byte header read finds its bytes the walk
succeeds after exactly the declared number of iterations; a step whose
declared size is below 8 stores an empty payload for the record tag and
advances the cursor by exactly that size (so a size of 0 re-reads the
same header next iteration); and under readable headers `processEXTH`
reports success. -/
theorem c10_undersized_records :
    (∀ (exth : ByteSeq) (n pos : Nat), exthHeadersOK exth n pos = true →
       (exthWalk exth n pos).2.1 = true ∧ (exthWalk exth n pos).1.length = n) ∧
    (∀ (exth : ByteSeq) (n pos : Nat),
       (pySlice exth pos (pos + 8)).length = 8 →
       beVal ((pySlice exth pos (pos + 8)).drop 4) < 8 →
       exthWalk exth (n + 1) pos =
         ((beVal ((pySlice exth pos (pos + 8)).take 4),
           beVal ((pySlice exth pos (pos + 8)).drop 4), []) ::
            (exthWalk exth n (pos + beVal ((pySlice exth pos (pos + 8)).drop 4))).1,
          (exthWalk exth n (pos + beVal ((pySlice exth pos (pos + 8)).drop 4))).2.1,
          (exthWalk exth n (pos + beVal ((pySlice exth pos (pos + 8)).drop 4))).2.2)) ∧
    (∀ (exth : ByteSeq) (meta0 : List (Nat × ByteSeq)),
       12 ≤ exth.length → exth.take 4 = exthTag →
       exthHeadersOK exth (beVal (pySlice exth 8 12)) 12 = true →
       (processEXTHSlice exth meta0).2 = true) := by
  refine ⟨?_, ?_, ?_⟩
  · intro exth n pos h
    exact ⟨(exthWalk_ok_eq exth n pos).trans h, exthWalk_length exth n pos h⟩
  · intro exth n pos h8 hsz
    simp only [exthWalk]
    rw [if_pos h8]
    rw [pySlice_nil_of_le exth (show pos + beVal ((pySlice exth pos (pos + 8)).drop 4) ≤ pos + 8 by omega)]
  · intro exth meta0 h12 htag hok
    simp only [processEXTHSlice]
    rw [if_neg (by simp only [not_or, not_lt, not_ne_iff]; exact ⟨h12, htag⟩)]
    show (exthWalk exth (beVal (pySlice exth 8 12)) 12).2.1 = true
    rw [exthWalk_ok_eq]
    exact hok

theorem c10_witness :
    exthHeadersOK exth10 3 12 = true ∧
    (exthWalk exth10 3 12).2.1 = true ∧
    (exthWalk exth10 3 12).1.length = 3 ∧
    (pySlice exth10 12 (12 + 8)).length = 8 ∧
    beVal ((pySlice exth10 12 (12 + 8)).drop 4) < 8 ∧
    exthWalk exth10 3 12 =
      ((100, 0, []) :: (exthWalk exth10 2 12).1,
       (exthWalk exth10 2 12).2.1, (exthWalk exth10 2 12).2.2) ∧
    (processEXTHSlice exth10 []).2 = true :=
  ⟨by decide,
   (c10_undersized_records.1 exth10 3 12 (by decide)).1,
   (c10_undersized_records.1 exth10 3 12 (by decide)).2,
   by decide, by decide,
   c10_undersized_records.2.1 exth10 2 12 (by decide) (by decide),
   c10_undersized_records.2.2 exth10 [] (by decide) (by decide) (by decide)⟩

/-- C1: EXTH corruption is absorbed at the header-parsing boundary.  In
every successfully constructed document whose `processEXTH` returned
falsily, the final `meta_array` is exactly empty (the records stored
before the failure point were discarded by the reset in
`parseMobiHeader`) and every tag lookup sees the empty index; a slice
below 12 bytes, a missing `EXTH` tag, and a walk that runs out of header
bytes (a declared item count exceeding the available bytes) each make
`processEXTH` return falsily.  `metaFromEXTH`, the embedding of the
whole guarded call, is a total function, which is the shallow form of
the `try`/`except` absorbing every exception of the walk. -/
theorem c1_exth_failure_absorbed :
    (∀ (data : ByteSeq) (b : MobiBook), makeBook data = Except.ok b →
       (processEXTH b.record0 b.exth_off []).2 = false →
       b.meta_array = [] ∧ ∀ tag : Nat, dictGet b.meta_array tag [] = []) ∧
    (∀ (r : ByteSeq) (o : Nat), (r.drop o).length < 12 →
       (processEXTH r o []).2 = false) ∧
    (∀ (r : ByteSeq) (o : Nat), (r.drop o).take 4 ≠ exthTag →
       (processEXTH r o []).2 = false) ∧
    (∀ (r : ByteSeq) (o : Nat),
       exthHeadersOK (r.drop o) (beVal (pySlice (r.drop o) 8 12)) 12 = false →
       (processEXTH r o []).2 = false) := by
  refine ⟨?_, ?_, ?_, ?_⟩
  · intro data b hmk hfail
    obtain ⟨_, _, _, hoff, _, flag, _, hmeta⟩ := makeBook_ok_inv hmk
    rw [hoff] at hfail
    have hempty : b.meta_array = [] := by
      rw [hmeta]
      simp [metaFromEXTH, hfail]
    exact ⟨hempty, fun tag => by rw [hempty]; rfl⟩
  · intro r o h
    unfold processEXTH processEXTHSlice
    rw [if_pos (Or.inl h)]
  · intro r o h
    unfold processEXTH processEXTHSlice
    rw [if_pos (Or.inr h)]
  · intro r o h
    unfold processEXTH
    simp only [processEXTHSlice]
    split
    · rfl
    · show (exthWalk (r.drop o) (beVal (pySlice (r.drop o) 8 12)) 12).2.1 = false
      rw [exthWalk_ok_eq]
      exact h

theorem c1_witness :
    makeBook c1Data = Except.ok c1Book ∧
    (processEXTH c1Book.record0 c1Book.exth_off []).2 = false ∧
    c1Book.meta_array = [] :=
  ⟨rfl, by decide, (c1_exth_failure_absorbed.1 c1Data c1Book rfl (by decide)).1⟩

/-- C8: `extra_data_flags` is read from the two bytes at `0xF2` only
when `mobi_length >= 0xE4` and `mobi_version >= 5`; when the condition
fails the read never happens (the result is `Except.ok 0` for every
section 0 content, even one too short to hold offset `0xF2`), and every
successfully constructed document violating the condition carries
`extra_data_flags = 0`. -/
theorem c8_extra_data_flags_conditional :
    (∀ (r : ByteSeq) (ml mv : Nat), ¬(0xE4 ≤ ml ∧ 5 ≤ mv) →
       extraDataFlagsRead r ml mv = Except.ok 0) ∧
    (∀ (r : ByteSeq) (ml mv : Nat), 0xE4 ≤ ml → 5 ≤ mv →
       extraDataFlagsRead r ml mv = unpackExc 2 r 0xF2) ∧
    (∀ (data : ByteSeq) (b : MobiBook), makeBook data = Except.ok b →
       ¬(0xE4 ≤ b.mobi_length ∧ 5 ≤ b.mobi_version) →
       b.extra_data_flags = 0) := by
  refine ⟨?_, ?_, ?_⟩
  · intro r ml mv h
    unfold extraDataFlagsRead
    rw [if_neg h]
  · intro r ml mv h1 h2
    unfold extraDataFlagsRead
    rw [if_pos ⟨h1, h2⟩]
  · intro data b hmk hcond
    obtain ⟨_, _, _, _, hex, _⟩ := makeBook_ok_inv hmk
    unfold extraDataFlagsRead at hex
    rw [if_neg hcond] at hex
    injection hex with h
    exact h.symm

theorem c8_witness :
    makeBook c8Data = Except.ok c8Book ∧
    ¬(0xE4 ≤ c8Book.mobi_length ∧ 5 ≤ c8Book.mobi_version) ∧
    pySlice c8Book.record0 0xF2 0xF4 = [84, 72] ∧
    c8Book.extra_data_flags = 0 :=
  ⟨rfl, by decide, by decide,
   c8_extra_data_flags_conditional.2.2 c8Data c8Book rfl (by decide)⟩

/-- C3: for every document and every name of the static table whose tag
is 116 or 201, a non-empty raw value of exactly 4 bytes is decoded as a
big-endian unsigned integer and rendered as its decimal string (whose
ASCII bytes survive both codecs unchanged); likewise for tag 406 with 8
bytes; an empty raw value skips the conversion and stays empty; and the
final decoding codec is `utf-8` exactly for codepage 65001 and
`windows-1252` for 1252 and every other value. -/
theorem c3_field_conversion_encoding :
    (∀ (b : MobiBook) (name : String) (tag : Nat) (v : ByteSeq),
       lookupTag name = some tag → tag = 116 ∨ tag = 201 →
       dictGet b.meta_array tag [] = v → v ≠ [] → v.length = 4 →
       getattrRaw b name = Except.ok (natToDecimal (beVal v))) ∧
    (∀ (b : MobiBook) (name : String) (v : ByteSeq),
       lookupTag name = some 406 →
       dictGet b.meta_array 406 [] = v → v ≠ [] → v.length = 8 →
       getattrRaw b name = Except.ok (natToDecimal (beVal v))) ∧
    (∀ (b : MobiBook) (name : String) (tag : Nat),
       lookupTag name = some tag → dictGet b.meta_array tag [] = [] →
       getattrRaw b name = Except.ok []) ∧
    codepageEnc 65001 = encUTF8 ∧
    (∀ cp : Nat, cp ≠ 65001 → codepageEnc cp = encW1252) ∧
    (∀ bs : ByteSeq, decodeBytes encUTF8 bs = utf8Decode bs) ∧
    (∀ bs : ByteSeq, decodeBytes encW1252 bs = cp1252Decode bs) := by
  refine ⟨?_, ?_, ?_, rfl, ?_, ?_, ?_⟩
  · intro b name tag v hname htag hv hne hlen
    have hdec : decodeBytes (codepageEnc b.mobi_codepage) (natToDecimal (beVal v)) =
        some (natToDecimal (beVal v)) :=
      decodeBytes_ascii _ _ (natToDecimal_lt _)
    rcases htag with h | h <;> subst h <;>
      simp [getattrRaw, hname, hv, convWidth, hne, unpackBE, hlen, ok_bind, hdec]
  · intro b name v hname hv hne hlen
    have hdec : decodeBytes (codepageEnc b.mobi_codepage) (natToDecimal (beVal v)) =
        some (natToDecimal (beVal v)) :=
      decodeBytes_ascii _ _ (natToDecimal_lt _)
    simp [getattrRaw, hname, hv, convWidth, hne, unpackBE, hlen, ok_bind, hdec]
  · intro b name tag hname hv
    have hdec : decodeBytes (codepageEnc b.mobi_codepage) ([] : ByteSeq) = some [] :=
      decodeBytes_ascii _ [] (by simp)
    cases hcw : convWidth tag <;>
      simp [getattrRaw, hname, hv, hcw, ok_bind, hdec]
  · intro cp h
    unfold codepageEnc
    split
    · rfl
    · exact absurd rfl h
    · rfl
  · intro bs
    unfold decodeBytes
    rw [if_pos rfl]
  · intro bs
    unfold decodeBytes
    rw [if_neg (by decide)]

theorem c3_witness :
    lookupTag "startoffset" = some 116 ∧
    dictGet b3.meta_array 116 [] = [0, 0, 0, 77] ∧
    getattrRaw b3 "startoffset" = Except.ok (natToDecimal (beVal [0, 0, 0, 77])) ∧
    natToDecimal (beVal [0, 0, 0, 77]) = [55, 55] ∧
    lookupTag "islibraryrental" = some 406 ∧
    getattrRaw b3 "islibraryrental" = Except.ok (natToDecimal (beVal [0, 0, 0, 0, 0, 0, 1, 0])) ∧
    natToDecimal (beVal [0, 0, 0, 0, 0, 0, 1, 0]) = [50, 53, 54] ∧
    getattrRaw b3 "publisher" = Except.ok [] ∧
    codepageEnc 9999 = encW1252 :=
  ⟨by decide, by decide,
   c3_field_conversion_encoding.1 b3 "startoffset" 116 [0, 0, 0, 77]
     (by decide) (Or.inl rfl) (by decide) (by decide) (by decide),
   by decide, by decide,
   c3_field_conversion_encoding.2.1 b3 "islibraryrental" [0, 0, 0, 0, 0, 0, 1, 0]
     (by decide) (by decide) (by decide) (by decide),
   by decide,
   c3_field_conversion_encoding.2.2.1 b3 "publisher" 101 (by decide) (by decide),
   c3_field_conversion_encoding.2.2.2.2.1 9999 (by decide)⟩

/-- C2 (amended): title resolution as the code performs it.  Stage 1: a
decoded `updatedtitle` whose trimmed content is non-empty is returned
trimmed.  Stage 2 runs only when the raw, untrimmed `updatedtitle` is
empty: then the byte range declared at `0x54` of section 0 is decoded
and returned trimmed when non-empty.  Stage 3 (the null-terminated
segment of the byte-trimmed first 32 PDB header bytes, not trimmed again
after decoding) is used when the trimmed result of whichever of stage
1/2 ran is empty — in particular a whitespace-only `updatedtitle` skips
stage 2 entirely and falls through to stage 3.  When stage 3 also
decodes to nothing, the result is the empty string, not an error. -/
theorem c2_title_three_stage_fallback :
    (∀ (b : MobiBook) (t : List Nat),
       getattrRaw b fnUpdatedtitle = Except.ok t → stripCps t ≠ [] →
       titleOf b = Except.ok (stripCps t)) ∧
    (∀ (b : MobiBook) (toff tlen : Nat) (t : List Nat),
       getattrRaw b fnUpdatedtitle = Except.ok [] →
       unpack2x4 b.record0 0x54 = some (toff, tlen) →
       decodeBytes (codepageEnc b.mobi_codepage)
         (pySlice b.record0 toff (toff + tlen)) = some t →
       stripCps t ≠ [] →
       titleOf b = Except.ok (stripCps t)) ∧
    (∀ (b : MobiBook) (t : List Nat),
       getattrRaw b fnUpdatedtitle = Except.ok t → t ≠ [] → stripCps t = [] →
       titleOf b = titleStage3 b) ∧
    (∀ (b : MobiBook) (toff tlen : Nat) (t : List Nat),
       getattrRaw b fnUpdatedtitle = Except.ok [] →
       unpack2x4 b.record0 0x54 = some (toff, tlen) →
       decodeBytes (codepageEnc b.mobi_codepage)
         (pySlice b.record0 toff (toff + tlen)) = some t →
       stripCps t = [] →
       titleOf b = titleStage3 b) := by
  refine ⟨?_, ?_, ?_, ?_⟩
  · intro b t hget hst
    have ht : t ≠ [] := by
      intro he
      subst he
      exact hst rfl
    simp only [titleOf, hget, ok_bind]
    rw [if_neg ht]
    simp only [ok_bind]
    rw [if_neg hst]
  · intro b toff tlen t hget hup hdec hst
    simp only [titleOf, hget, ok_bind, if_true]
    simp only [hup, hdec, ok_bind]
    rw [if_neg hst]
  · intro b t hget hne hst
    simp only [titleOf, hget, ok_bind]
    rw [if_neg hne]
    simp only [ok_bind]
    rw [if_pos hst]
  · intro b toff tlen t hget hup hdec hst
    simp only [titleOf, hget, ok_bind, if_true]
    simp only [hup, hdec, ok_bind]
    rw [if_pos hst]

theorem c2_witness :
    makeBook c2bData = Except.ok c2bBook ∧
    getattrRaw c2bBook fnUpdatedtitle = Except.ok [84] ∧
    stripCps [84] ≠ [] ∧
    titleOf c2bBook = Except.ok (stripCps [84]) :=
  ⟨rfl, rfl, by decide,
   c2_title_three_stage_fallback.1 c2bBook [84] rfl (by decide)⟩

/-- C2 (counterexample to the claim as stated): in `c2Book` the
`updatedtitle` record exists and decodes to a single space, so its
trimmed content is empty; the claim then demands the trimmed decode of
the header-declared range at `0x54`, which is the non-empty `A` (code
point 65); but `title` tests the raw, untrimmed `updatedtitle` before
stage 2 and therefore skips it, returning the PDB header name `B` (code
point 66) instead. -/
theorem c2_counterexample :
    makeBook c2Data = Except.ok c2Book ∧
    getattrRaw c2Book fnUpdatedtitle = Except.ok [32] ∧
    stripCps [32] = [] ∧
    unpack2x4 c2Book.record0 0x54 = some (184, 1) ∧
    decodeBytes (codepageEnc c2Book.mobi_codepage)
      (pySlice c2Book.record0 184 (184 + 1)) = some [65] ∧
    stripCps [65] = [65] ∧
    titleOf c2Book = Except.ok [66] ∧
    ([66] : List Nat) ≠ [65] :=
  ⟨rfl, rfl, by decide, rfl, rfl, by decide, rfl, by decide⟩

end Mobi
